import Mathlib

/-
  Verification development for posthog-replicate: a PostHog-instrumented
  wrapper around the Replicate client.  The definitions below are a shallow
  embedding of `src/capture.ts` and the wrapper module defining the
  `PostHogReplicate` class (run / stream / predictions.create /
  predictions.get / extractHttpStatus / the prediction-tracking map).

  JavaScript values are modelled by `JsVal`; `undefined` is an explicit
  value, so an absent object field and an `undefined`-valued field read the
  same way, as in JavaScript.  Asynchronous operations are modelled as pure
  functions from the outcome of the one underlying client call they perform
  (`Except JsVal JsVal`: the awaited value, or the thrown error) to the
  value returned / rethrown to the caller together with the list of
  capture calls handed to `captureGeneration` (and hence to
  `posthog.capture`) during the operation.
-/

namespace PostHogReplicate

/-- A JavaScript runtime value, as far as this library inspects values:
numbers, strings, booleans, null, undefined, plain objects, arrays.
`obj isErrorInstance fields`: `isErrorInstance = true` marks a value for
which `v instanceof Error` holds (its `name` / `message` / `stack` live in
`fields` like any other property). -/
inductive JsVal where
  | num (n : Int)
  | str (s : String)
  | bool (b : Bool)
  | null
  | undef
  | obj (isErrorInstance : Bool) (fields : List (String × JsVal))
  | arr (elems : List JsVal)

/-- First-match association lookup in an object's field list; reading an
absent property yields `undefined`. -/
def lookupField : List (String × JsVal) → String → JsVal
  | [], _ => JsVal.undef
  | (k', v) :: rest, k => if k' = k then v else lookupField rest k

/-- `v.k` / `v?.k`: property access guarded the way this library uses it
(reading a property of a non-object yields `undefined`). -/
def JsVal.getField : JsVal → String → JsVal
  | JsVal.obj _ fields, k => lookupField fields k
  | _, _ => JsVal.undef

/-- JavaScript truthiness of a `JsVal` (NaN is not modelled). -/
def JsVal.truthy : JsVal → Bool
  | JsVal.num n => !(n = 0)
  | JsVal.str s => !(s = "")
  | JsVal.bool b => b
  | JsVal.null => false
  | JsVal.undef => false
  | JsVal.obj _ _ => true
  | JsVal.arr _ => true

/-- The `typeof` operator on a `JsVal` (note `typeof null = "object"`,
and arrays and Error instances are `"object"` as well). -/
def JsVal.typeofStr : JsVal → String
  | JsVal.num _ => "number"
  | JsVal.str _ => "string"
  | JsVal.bool _ => "boolean"
  | JsVal.null => "object"
  | JsVal.undef => "undefined"
  | JsVal.obj _ _ => "object"
  | JsVal.arr _ => "object"

/-- `v === "s"` for a string literal. -/
def JsVal.isStr : JsVal → String → Bool
  | JsVal.str t, s => t = s
  | _, _ => false

/-- `v === undefined`. -/
def JsVal.isUndef : JsVal → Bool
  | JsVal.undef => true
  | _ => false

/-- `v === null`. -/
def JsVal.isNull : JsVal → Bool
  | JsVal.null => true
  | _ => false

/-- `String(v)`.  For objects and arrays this is an approximation of the
JavaScript stringification; formatError never reaches those branches (they
are returned as-is before the final `String(error)` fallback). -/
def jsToString : JsVal → String
  | JsVal.num n => toString n
  | JsVal.str s => s
  | JsVal.bool b => if b then "true" else "false"
  | JsVal.null => "null"
  | JsVal.undef => "undefined"
  | JsVal.obj _ _ => "[object Object]"
  | JsVal.arr _ => ""

/-- Property assignment `props[k] = v` on a JavaScript object represented
as an insertion-ordered association list: an existing key keeps its
position and gets the new value, a new key is appended. -/
def setProp (ps : List (String × JsVal)) (k : String) (v : JsVal) : List (String × JsVal) :=
  if ps.any (fun p => p.1 = k) then
    ps.map (fun p => if p.1 = k then (k, v) else p)
  else
    ps ++ [(k, v)]

/-- Property read: the value stored at `k`, if the key is present. -/
def getProp : List (String × JsVal) → String → Option JsVal
  | [], _ => none
  | (k', v) :: rest, k => if k' = k then some v else getProp rest k

/-- Key-presence test (`k in props`). -/
def hasProp (ps : List (String × JsVal)) (k : String) : Bool :=
  (getProp ps k).isSome

/-- Truthiness of an optional boolean option (`options.privacyMode`). -/
def truthyOptBool : Option Bool → Bool
  | some b => b
  | none => false

/-- Truthiness of an optional string option (`options.traceId`,
`options.predictionId`, `options.distinctId`): `undefined` and `""` are
falsy. -/
def truthyOptStr : Option String → Bool
  | some s => !(s = "")
  | none => false

/-- `capture.ts` / `CaptureOptions` (types.ts): the internal options record
handed to `captureGeneration`.  TS-optional fields of object type are a
`JsVal` (absent = `undefined`); TS-optional fields of primitive type are an
`Option`. -/
structure CaptureOptions where
  model : String
  latency : Int
  httpStatus : Int
  isError : Bool
  error : JsVal := JsVal.undef
  input : JsVal := JsVal.undef
  output : JsVal := JsVal.undef
  distinctId : Option String := none
  traceId : Option String := none
  customProperties : Option (List (String × JsVal)) := none
  groups : Option (List (String × String)) := none
  privacyMode : Option Bool := none
  stream : Option Bool := none
  predictionId : Option String := none

/-- The argument this library passes to `posthog.capture`. -/
structure CapturedEvent where
  distinctId : String
  event : String
  properties : List (String × JsVal)
  groups : Option (List (String × String))

/-- `capture.ts` / `formatInput`: wrap the raw input as
`[{role: "user", content: input}]`. -/
def formatInput (input : JsVal) : JsVal :=
  JsVal.arr [JsVal.obj false [("role", JsVal.str "user"), ("content", input)]]

/-- `capture.ts` / `formatOutput`: wrap the raw output as
`[{role: "assistant", content: output}]`. -/
def formatOutput (output : JsVal) : JsVal :=
  JsVal.arr [JsVal.obj false [("role", JsVal.str "assistant"), ("content", output)]]

/-- `capture.ts` / `formatError`: an `Error` instance keeps only
name / message / stack; a string or a non-null object passes through
unchanged; anything else is coerced with `String(error)`. -/
def formatError (error : JsVal) : JsVal :=
  match error with
  | JsVal.obj true fields =>
      JsVal.obj false
        [("name", lookupField fields "name"),
         ("message", lookupField fields "message"),
         ("stack", lookupField fields "stack")]
  | e =>
      if e.typeofStr = "string" then e
      else if e.typeofStr = "object" && !e.isNull then e
      else JsVal.str (jsToString e)

/-- `capture.ts` lines 18-26: the six unconditionally captured properties. -/
def baseProps (o : CaptureOptions) : List (String × JsVal) :=
  [("$ai_provider", JsVal.str "replicate"),
   ("$ai_model", JsVal.str o.model),
   ("$ai_latency", JsVal.num o.latency),
   ("$ai_http_status", JsVal.num o.httpStatus),
   ("$ai_base_url", JsVal.str "https://api.replicate.com"),
   ("$ai_is_error", JsVal.bool o.isError)]

/-- `if (options.isError && options.error) properties.$ai_error = ...`. -/
def stageError (o : CaptureOptions) (ps : List (String × JsVal)) : List (String × JsVal) :=
  if o.isError && o.error.truthy then setProp ps "$ai_error" (formatError o.error) else ps

/-- `if (!options.privacyMode) { if (options.input !== undefined) ...;
if (options.output !== undefined) ... }`. -/
def stageInputOutput (o : CaptureOptions) (ps : List (String × JsVal)) : List (String × JsVal) :=
  if !truthyOptBool o.privacyMode then
    let ps := if !o.input.isUndef then setProp ps "$ai_input" (formatInput o.input) else ps
    if !o.output.isUndef then setProp ps "$ai_output_choices" (formatOutput o.output) else ps
  else ps

/-- `if (options.traceId) properties.$ai_trace_id = options.traceId`. -/
def stageTrace (o : CaptureOptions) (ps : List (String × JsVal)) : List (String × JsVal) :=
  match o.traceId with
  | some s => if !(s = "") then setProp ps "$ai_trace_id" (JsVal.str s) else ps
  | none => ps

/-- `if (options.stream !== undefined) properties.$ai_stream = options.stream`. -/
def stageStream (o : CaptureOptions) (ps : List (String × JsVal)) : List (String × JsVal) :=
  match o.stream with
  | some b => setProp ps "$ai_stream" (JsVal.bool b)
  | none => ps

/-- `if (options.predictionId) properties.$ai_prediction_id = ...`. -/
def stagePredictionId (o : CaptureOptions) (ps : List (String × JsVal)) : List (String × JsVal) :=
  match o.predictionId with
  | some s => if !(s = "") then setProp ps "$ai_prediction_id" (JsVal.str s) else ps
  | none => ps

/-- `if (options.customProperties) Object.assign(properties, options.customProperties)`.
`Object.assign` writes the source's keys in order, updating existing keys in
place and appending new ones — i.e. a left fold of property assignment. -/
def stageCustom (o : CaptureOptions) (ps : List (String × JsVal)) : List (String × JsVal) :=
  match o.customProperties with
  | some cs => cs.foldl (fun ps kv => setProp ps kv.1 kv.2) ps
  | none => ps

/-- `capture.ts` / `captureGeneration`: assemble the property map stage by
stage in source order and hand one event to `posthog.capture`, with
`distinctId: options.distinctId || "anonymous"`. -/
def captureGeneration (o : CaptureOptions) : CapturedEvent :=
  { distinctId :=
      match o.distinctId with
      | some s => if s = "" then "anonymous" else s
      | none => "anonymous"
  , event := "$ai_generation"
  , properties :=
      stageCustom o (stagePredictionId o (stageStream o (stageTrace o
        (stageInputOutput o (stageError o (baseProps o))))))
  , groups := o.groups }

/-- `typeof v === "number" ? v : undefined`: the value of `v` when it is a
number. -/
def numAt : JsVal → Option Int
  | JsVal.num n => some n
  | _ => none

/-- `PostHogReplicate.extractHttpStatus`: if the error is a truthy value of
`typeof "object"`, check in order — `if (typeof errorObj.status ===
"number") return errorObj.status`, then the same for `statusCode`, then
for the `status` field of a `response` field that is itself truthy and of
`typeof "object"`; otherwise `undefined`. -/
def extractHttpStatus (err : JsVal) : Option Int :=
  if err.truthy && err.typeofStr = "object" then
    match numAt (err.getField "status") with
    | some n => some n
    | none =>
      match numAt (err.getField "statusCode") with
      | some n => some n
      | none =>
        let response := err.getField "response"
        if response.truthy && response.typeofStr = "object" then
          numAt (response.getField "status")
        else none
  else none

/-- `this.extractHttpStatus(err) || 500`: JavaScript `||` treats both
`undefined` and the number `0` as falsy. -/
def httpStatusOr500 (err : JsVal) : Int :=
  match extractHttpStatus err with
  | some n => if n = 0 then 500 else n
  | none => 500

/-- `types.ts` / `PostHogTrackingOptions`: the five caller-supplied
tracking parameters. -/
structure PostHogParams where
  posthogDistinctId : Option String := none
  posthogTraceId : Option String := none
  posthogProperties : Option (List (String × JsVal)) := none
  posthogGroups : Option (List (String × String)) := none
  posthogPrivacyMode : Option Bool := none

/-- `Object.values(posthogParams).some(v => v !== undefined)`: at least one
of the five tracking parameters was supplied. -/
def hasAnyParam (p : PostHogParams) : Bool :=
  p.posthogDistinctId.isSome || p.posthogTraceId.isSome || p.posthogProperties.isSome
    || p.posthogGroups.isSome || p.posthogPrivacyMode.isSome

/-- `types.ts` / `RunOptions`: model input plus the five tracking
parameters (the pass-through fields `wait` / `webhook` / `signal` do not
reach the capture path and are omitted). -/
structure RunOptions where
  input : JsVal
  posthogDistinctId : Option String := none
  posthogTraceId : Option String := none
  posthogProperties : Option (List (String × JsVal)) := none
  posthogGroups : Option (List (String × String)) := none
  posthogPrivacyMode : Option Bool := none

/-- `extractPostHogParams` applied to a `RunOptions` bag: destructure the
five `posthog*` keys into a `PostHogTrackingOptions` literal (note the
literal always carries all five keys, `undefined`-valued when unsupplied),
leaving the rest as the replicate options. -/
def RunOptions.extractPostHogParams (o : RunOptions) : PostHogParams :=
  { posthogDistinctId := o.posthogDistinctId
  , posthogTraceId := o.posthogTraceId
  , posthogProperties := o.posthogProperties
  , posthogGroups := o.posthogGroups
  , posthogPrivacyMode := o.posthogPrivacyMode }

/-- `types.ts` / `StreamOptions`: same shape as `RunOptions` for the
capture-relevant fields. -/
structure StreamOptions where
  input : JsVal
  posthogDistinctId : Option String := none
  posthogTraceId : Option String := none
  posthogProperties : Option (List (String × JsVal)) := none
  posthogGroups : Option (List (String × String)) := none
  posthogPrivacyMode : Option Bool := none

/-- `extractPostHogParams` applied to a `StreamOptions` bag. -/
def StreamOptions.extractPostHogParams (o : StreamOptions) : PostHogParams :=
  { posthogDistinctId := o.posthogDistinctId
  , posthogTraceId := o.posthogTraceId
  , posthogProperties := o.posthogProperties
  , posthogGroups := o.posthogGroups
  , posthogPrivacyMode := o.posthogPrivacyMode }

/-- `types.ts` / `PredictionCreateOptions`: `model` / `version` are
TS-optional strings, `input` an object; webhook / wait / signal fields are
pass-through and omitted. -/
structure PredictionCreateOptions where
  model : Option String := none
  version : Option String := none
  input : JsVal
  posthogDistinctId : Option String := none
  posthogTraceId : Option String := none
  posthogProperties : Option (List (String × JsVal)) := none
  posthogGroups : Option (List (String × String)) := none
  posthogPrivacyMode : Option Bool := none

/-- `extractPostHogParams` applied to a `PredictionCreateOptions` bag. -/
def PredictionCreateOptions.extractPostHogParams (o : PredictionCreateOptions) : PostHogParams :=
  { posthogDistinctId := o.posthogDistinctId
  , posthogTraceId := o.posthogTraceId
  , posthogProperties := o.posthogProperties
  , posthogGroups := o.posthogGroups
  , posthogPrivacyMode := o.posthogPrivacyMode }

/-- `PredictionGetOptions` (imported from types.ts; the declaration itself
is not among the provided sources).  The wrapper only ever destructures the
five `posthog*` tracking keys from it and forwards `signal` to the
underlying client, so it is modelled as the tracking parameters; `signal`
never reaches the capture path and is omitted. -/
structure PredictionGetOptions where
  posthogDistinctId : Option String := none
  posthogTraceId : Option String := none
  posthogProperties : Option (List (String × JsVal)) := none
  posthogGroups : Option (List (String × String)) := none
  posthogPrivacyMode : Option Bool := none

/-- `extractPostHogParams` applied to a `PredictionGetOptions` bag. -/
def PredictionGetOptions.extractPostHogParams (o : PredictionGetOptions) : PostHogParams :=
  { posthogDistinctId := o.posthogDistinctId
  , posthogTraceId := o.posthogTraceId
  , posthogProperties := o.posthogProperties
  , posthogGroups := o.posthogGroups
  , posthogPrivacyMode := o.posthogPrivacyMode }

/-- The in-memory `predictionTrackingParams : Map<string, PostHogTrackingOptions>`,
as an insertion-ordered association list with unique keys. -/
abbrev TrackMap := List (String × PostHogParams)

/-- `Map.prototype.set`: update an existing key in place, append a new one. -/
def mapSet (m : TrackMap) (k : String) (v : PostHogParams) : TrackMap :=
  if m.any (fun p => p.1 = k) then
    m.map (fun p => if p.1 = k then (k, v) else p)
  else
    m ++ [(k, v)]

/-- `Map.prototype.get`. -/
def mapGet : TrackMap → String → Option PostHogParams
  | [], _ => none
  | (k', v) :: rest, k => if k' = k then some v else mapGet rest k

/-- `Map.prototype.delete` (idempotent). -/
def mapDelete (m : TrackMap) (k : String) : TrackMap :=
  m.filter (fun p => !(p.1 = k))

/-- `a || b` for a TS-optional string: falls through on `undefined` and on
the empty string (both falsy). -/
def strOr (a : Option String) (b : String) : String :=
  match a with
  | some s => if s = "" then b else s
  | none => b

/-- The value of `prediction` after the try/catch: the awaited result on
success, still `undefined` after a throw. -/
def predictionValue (underlying : Except JsVal JsVal) : JsVal :=
  match underlying with
  | Except.ok p => p
  | Except.error _ => JsVal.undef

/-- The `isError` flag after the try/catch. -/
def outcomeIsError (underlying : Except JsVal JsVal) : Bool :=
  match underlying with
  | Except.ok _ => false
  | Except.error _ => true

/-- The `error` variable after the try/catch: still `undefined` on success,
the caught value on failure. -/
def caughtError (underlying : Except JsVal JsVal) : JsVal :=
  match underlying with
  | Except.ok _ => JsVal.undef
  | Except.error e => e

/-- The `httpStatus` variable after the try/catch: initialised to 200, set
to `extractHttpStatus(err) || 500` in the catch block. -/
def outcomeHttpStatus (underlying : Except JsVal JsVal) : Int :=
  match underlying with
  | Except.ok _ => 200
  | Except.error e => httpStatusOr500 e

/-- Result of a wrapped `run` call: the value returned (or error rethrown)
to the caller, and the capture calls made in the `finally` block. -/
structure RunResult where
  result : Except JsVal JsVal
  captureCalls : List CaptureOptions

/-- `PostHogReplicate.run`: delegate to `super.run`; in the catch block
record the error and its extracted status and rethrow; in the `finally`
block make exactly one `captureGeneration` call with `stream: false`.
`underlying` is the outcome of the one awaited `super.run` call; `latency`
the timer reading in the `finally` block.  On success the awaited value is
returned unchanged, on failure the caught error is rethrown unchanged —
i.e. the result is exactly `underlying`. -/
def run (model : String) (options : RunOptions) (underlying : Except JsVal JsVal)
    (latency : Int) : RunResult :=
  let posthogParams := options.extractPostHogParams
  { result := underlying
  , captureCalls :=
      [{ model := model
       , latency := latency
       , httpStatus := outcomeHttpStatus underlying
       , isError := outcomeIsError underlying
       , error := caughtError underlying
       , input := options.input
       , output := predictionValue underlying
       , distinctId := posthogParams.posthogDistinctId
       , traceId := posthogParams.posthogTraceId
       , customProperties := posthogParams.posthogProperties
       , groups := posthogParams.posthogGroups
       , privacyMode := posthogParams.posthogPrivacyMode
       , stream := some false }] }

/-- One server-sent event record `{event, data, id?}` yielded by the
underlying stream. -/
structure Chunk where
  event : String
  data : String
  id : Option String := none
deriving DecidableEq

/-- The `collectedOutput` accumulator of the stream loop: the in-order
concatenation of `event.data` over the chunks with `event.event === "output"`. -/
def collectOutput (chunks : List Chunk) : String :=
  chunks.foldl (fun acc c => if c.event = "output" then acc ++ c.data else acc) ""

/-- Result of a wrapped `stream` call, consumed to its end: the chunks
yielded to the caller, the error rethrown to the caller (if the underlying
iteration threw), and the capture calls made in the `finally` block. -/
structure StreamResult where
  yielded : List Chunk
  streamError : Option JsVal
  captureCalls : List CaptureOptions

/-- `PostHogReplicate.stream`, over one full lifecycle of the generator:
the underlying stream yields `chunks` and then either finishes (`streamError
= none`) or raises (`streamError = some e`).  Each chunk is yielded to the
caller unchanged after accumulating `data` of `"output"`-tagged chunks; the
`finally` block makes exactly one `captureGeneration` call with
`stream: true` and `output: collectedOutput || undefined`. -/
def stream (model : String) (options : StreamOptions) (chunks : List Chunk)
    (streamError : Option JsVal) (latency : Int) : StreamResult :=
  let posthogParams := options.extractPostHogParams
  let underlying : Except JsVal JsVal :=
    match streamError with
    | some e => Except.error e
    | none => Except.ok JsVal.undef
  { yielded := chunks
  , streamError := streamError
  , captureCalls :=
      [{ model := model
       , latency := latency
       , httpStatus := outcomeHttpStatus underlying
       , isError := outcomeIsError underlying
       , error := caughtError underlying
       , input := options.input
       , output := if collectOutput chunks = "" then JsVal.undef
                   else JsVal.str (collectOutput chunks)
       , distinctId := posthogParams.posthogDistinctId
       , traceId := posthogParams.posthogTraceId
       , customProperties := posthogParams.posthogProperties
       , groups := posthogParams.posthogGroups
       , privacyMode := posthogParams.posthogPrivacyMode
       , stream := some true }] }

/-- `prediction?.id as string | undefined`: the `id` field of the created
prediction.  Replicate prediction ids are strings (the TS cast asserts as
much), so only a string-valued field is extracted. -/
def predictionIdOf (prediction : JsVal) : Option String :=
  match prediction.getField "id" with
  | JsVal.str s => some s
  | _ => none

/-- Result of a wrapped `predictions.create` call: value returned /
rethrown, the tracking map after the call, and the capture calls. -/
structure CreateResult where
  result : Except JsVal JsVal
  state : TrackMap
  captureCalls : List CaptureOptions

/-- `PostHogReplicate.createPrediction`: delegate to the original
`predictions.create`; on success, if the new prediction's id is truthy and
at least one tracking parameter was supplied, store the tracking parameters
in `predictionTrackingParams` under that id; rethrow errors; in the
`finally` block make exactly one `captureGeneration` call with
`model: String(options.model || options.version || "unknown")`, no output,
and the caller's custom properties spread into a literal that then sets
`$ai_async_prediction: true`. -/
def createPrediction (options : PredictionCreateOptions)
    (underlying : Except JsVal JsVal) (st : TrackMap) (latency : Int) : CreateResult :=
  let posthogParams := options.extractPostHogParams
  let prediction := predictionValue underlying
  let predId := predictionIdOf prediction
  let predIdTruthy := truthyOptStr predId
  let st' :=
    match underlying with
    | Except.ok _ =>
        if predIdTruthy && hasAnyParam posthogParams then
          mapSet st (predId.getD "") posthogParams
        else st
    | Except.error _ => st
  { result := underlying
  , state := st'
  , captureCalls :=
      [{ model := strOr options.model (strOr options.version "unknown")
       , latency := latency
       , httpStatus := outcomeHttpStatus underlying
       , isError := outcomeIsError underlying
       , error := caughtError underlying
       , input := options.input
       , output := JsVal.undef
       , distinctId := posthogParams.posthogDistinctId
       , traceId := posthogParams.posthogTraceId
       , customProperties :=
           some (setProp (posthogParams.posthogProperties.getD [])
                   "$ai_async_prediction" (JsVal.bool true))
       , groups := posthogParams.posthogGroups
       , privacyMode := posthogParams.posthogPrivacyMode
       , predictionId := predId }] }

/-- Line 332 of the wrapper: `status === "succeeded" || status === "failed"
|| status === "canceled"`. -/
def isCompletedStatus (status : JsVal) : Bool :=
  status.isStr "succeeded" || status.isStr "failed" || status.isStr "canceled"

/-- Result of a wrapped `predictions.get` call. -/
structure GetResult where
  result : Except JsVal JsVal
  state : TrackMap
  captureCalls : List CaptureOptions

/-- `PostHogReplicate.getPrediction`: merge the stored tracking parameters
with the ones supplied to this call via
`{...storedParams, ...providedParams}`.  When `options` is supplied,
`extractPostHogParams(options).posthogParams` is an object literal carrying
all five `posthog*` keys (with value `undefined` for every parameter not
supplied), so the spread overwrites every stored field; when `options` is
absent, `providedParams` is `{}` and the stored fields survive.  Delegate to
the original `predictions.get`, rethrow errors, delete the tracking entry
once a terminal status is observed, and make exactly one
`captureGeneration` call in the `finally` block. -/
def getPrediction (predictionId : String) (options : Option PredictionGetOptions)
    (underlying : Except JsVal JsVal) (st : TrackMap) (latency : Int) : GetResult :=
  let storedParams := (mapGet st predictionId).getD {}
  let posthogParams : PostHogParams :=
    match options with
    | some o => o.extractPostHogParams
    | none => storedParams
  let prediction := predictionValue underlying
  let model := prediction.getField "model"
  let version := prediction.getField "version"
  let modelStr :=
    jsToString (if model.truthy then model else if version.truthy then version
                else JsVal.str "unknown")
  let status := prediction.getField "status"
  let isCompleted := isCompletedStatus status
  let st' := if isCompleted then mapDelete st predictionId else st
  let thrown := caughtError underlying
  { result := underlying
  , state := st'
  , captureCalls :=
      [{ model := modelStr
       , latency := latency
       , httpStatus := outcomeHttpStatus underlying
       , isError := outcomeIsError underlying || status.isStr "failed"
       , error := if thrown.truthy then thrown
                  else if status.isStr "failed" then prediction.getField "error"
                  else JsVal.undef
       , input := prediction.getField "input"
       , output := if status.isStr "succeeded" then prediction.getField "output"
                   else JsVal.undef
       , distinctId := posthogParams.posthogDistinctId
       , traceId := posthogParams.posthogTraceId
       , customProperties :=
           some (setProp (setProp (setProp (posthogParams.posthogProperties.getD [])
                   "$ai_prediction_status" status)
                   "$ai_prediction_get" (JsVal.bool true))
                   "$ai_prediction_completed" (JsVal.bool isCompleted))
       , groups := posthogParams.posthogGroups
       , privacyMode := posthogParams.posthogPrivacyMode
       , predictionId := some predictionId }] }

/-
  Toolkit lemmas about the property-map operations.
-/

theorem getProp_nil (k : String) : getProp [] k = none := rfl

theorem getProp_cons (k' : String) (v : JsVal) (rest : List (String × JsVal)) (k : String) :
    getProp ((k', v) :: rest) k = if k' = k then some v else getProp rest k := rfl

theorem getProp_append (ps qs : List (String × JsVal)) (k : String) :
    getProp (ps ++ qs) k = (getProp ps k).or (getProp qs k) := by
  induction ps with
  | nil => simp [getProp]
  | cons p rest ih =>
    obtain ⟨k', v⟩ := p
    by_cases h : k' = k <;> simp [getProp, h, ih, Option.or]

theorem getProp_eq_none_of_forall_ne {ps : List (String × JsVal)} {k : String}
    (h : ∀ p ∈ ps, ¬ p.1 = k) : getProp ps k = none := by
  induction ps with
  | nil => rfl
  | cons p rest ih =>
    obtain ⟨k', v⟩ := p
    have h1 : ¬ k' = k := h (k', v) (List.mem_cons_self _ _)
    rw [getProp_cons, if_neg h1]
    exact ih (fun q hq => h q (List.mem_cons_of_mem _ hq))

theorem getProp_eq_none_of_any_eq_false {ps : List (String × JsVal)} {k : String}
    (h : ps.any (fun p => p.1 = k) = false) : getProp ps k = none := by
  apply getProp_eq_none_of_forall_ne
  intro p hp
  have := List.any_eq_false.mp h p hp
  simpa using this

theorem getProp_map_replace_ne {k' k : String} (hne : ¬ k' = k) (v : JsVal)
    (ps : List (String × JsVal)) :
    getProp (ps.map (fun p => if p.1 = k' then (k', v) else p)) k = getProp ps k := by
  induction ps with
  | nil => rfl
  | cons p rest ih =>
    obtain ⟨a, b⟩ := p
    rw [List.map_cons]
    by_cases ha : a = k'
    · rw [if_pos (show (a, b).1 = k' from ha), getProp_cons, getProp_cons, if_neg hne,
        if_neg (fun h => hne (ha.symm.trans h)), ih]
    · rw [if_neg (show ¬ (a, b).1 = k' from ha), getProp_cons, getProp_cons, ih]

theorem getProp_map_replace_self {ps : List (String × JsVal)} {k : String} (v : JsVal)
    (h : ps.any (fun p => p.1 = k) = true) :
    getProp (ps.map (fun p => if p.1 = k then (k, v) else p)) k = some v := by
  induction ps with
  | nil => simp at h
  | cons p rest ih =>
    obtain ⟨a, b⟩ := p
    rw [List.map_cons]
    by_cases ha : a = k
    · rw [if_pos (show (a, b).1 = k from ha), getProp_cons, if_pos rfl]
    · have hrest : rest.any (fun p => p.1 = k) = true := by
        simpa [List.any_cons, ha] using h
      rw [if_neg (show ¬ (a, b).1 = k from ha), getProp_cons, if_neg ha, ih hrest]

theorem getProp_setProp_self (ps : List (String × JsVal)) (k : String) (v : JsVal) :
    getProp (setProp ps k v) k = some v := by
  unfold setProp
  by_cases h : ps.any (fun p => p.1 = k) = true
  · rw [if_pos h]
    exact getProp_map_replace_self v h
  · rw [if_neg h, getProp_append]
    rw [getProp_eq_none_of_any_eq_false (Bool.eq_false_iff.mpr h)]
    simp [getProp]

theorem getProp_setProp_ne {k' k : String} (hne : ¬ k' = k) (ps : List (String × JsVal))
    (v : JsVal) : getProp (setProp ps k' v) k = getProp ps k := by
  unfold setProp
  by_cases h : ps.any (fun p => p.1 = k') = true
  · rw [if_pos h]
    exact getProp_map_replace_ne hne v ps
  · rw [if_neg h, getProp_append]
    simp [getProp, hne, Option.or_none]

theorem getProp_foldl_setProp (cs : List (String × JsVal)) (ps : List (String × JsVal))
    (k : String) :
    getProp (cs.foldl (fun ps kv => setProp ps kv.1 kv.2) ps) k
      = (getProp cs.reverse k).or (getProp ps k) := by
  induction cs generalizing ps with
  | nil => simp [getProp, Option.none_or]
  | cons kv rest ih =>
    obtain ⟨k', v⟩ := kv
    rw [List.foldl_cons, ih, List.reverse_cons, getProp_append]
    by_cases h : k' = k
    · subst h
      rw [getProp_setProp_self, getProp_cons, if_pos rfl]
      cases getProp rest.reverse k' <;> rfl
    · rw [getProp_setProp_ne h, getProp_cons, if_neg h, getProp_nil, Option.or_none]

theorem getProp_eq_some_of_mem_nodup {cs : List (String × JsVal)} {k : String} {v : JsVal}
    (hnd : (cs.map Prod.fst).Nodup) (hmem : (k, v) ∈ cs) : getProp cs k = some v := by
  induction cs with
  | nil => simp at hmem
  | cons p rest ih =>
    obtain ⟨a, b⟩ := p
    simp only [List.map_cons, List.nodup_cons] at hnd
    rcases List.mem_cons.mp hmem with heq | hrest
    · rw [getProp_cons]
      cases heq
      simp
    · have ha : ¬ a = k := by
        intro hak
        subst hak
        exact hnd.1 (List.mem_map.mpr ⟨(a, v), hrest, rfl⟩)
      rw [getProp_cons, if_neg ha]
      exact ih hnd.2 hrest

theorem getProp_reverse_map_replace {ps : List (String × JsVal)} {k : String} {v : JsVal}
    (h : ps.any (fun p => p.1 = k) = true) :
    getProp ((ps.map (fun p => if p.1 = k then (k, v) else p)).reverse) k = some v := by
  induction ps with
  | nil => simp at h
  | cons p rest ih =>
    obtain ⟨a, b⟩ := p
    rw [List.map_cons, List.reverse_cons, getProp_append]
    by_cases hrest : rest.any (fun p => p.1 = k) = true
    · rw [ih hrest]
      rfl
    · have ha : a = k := by
        simpa [List.any_cons, Bool.eq_false_iff.mpr hrest] using h
      have hnone : getProp ((rest.map (fun p => if p.1 = k then (k, v) else p)).reverse) k
          = none := by
        apply getProp_eq_none_of_forall_ne
        intro q hq
        rw [List.mem_reverse] at hq
        obtain ⟨q', hq', hqeq⟩ := List.mem_map.mp hq
        have hq'1 : ¬ q'.1 = k := by
          have := List.any_eq_false.mp (Bool.eq_false_iff.mpr hrest) q' hq'
          simpa using this
        rw [← hqeq, if_neg hq'1]
        exact hq'1
      rw [hnone, Option.none_or, if_pos (show (a, b).1 = k from ha), getProp_cons, if_pos rfl]

theorem getProp_reverse_setProp_self (ps : List (String × JsVal)) (k : String) (v : JsVal) :
    getProp ((setProp ps k v).reverse) k = some v := by
  unfold setProp
  by_cases h : ps.any (fun p => p.1 = k) = true
  · rw [if_pos h]
    exact getProp_reverse_map_replace h
  · rw [if_neg h, List.reverse_append]
    simp [getProp]

theorem mapGet_mapDelete_self (m : TrackMap) (k : String) :
    mapGet (mapDelete m k) k = none := by
  induction m with
  | nil => rfl
  | cons p rest ih =>
    obtain ⟨a, b⟩ := p
    by_cases h : a = k <;> simp [mapDelete, mapGet, h] <;> simpa [mapDelete] using ih

theorem getProp_baseProps_ne (o : CaptureOptions) {k : String}
    (h1 : ¬ "$ai_provider" = k) (h2 : ¬ "$ai_model" = k) (h3 : ¬ "$ai_latency" = k)
    (h4 : ¬ "$ai_http_status" = k) (h5 : ¬ "$ai_base_url" = k) (h6 : ¬ "$ai_is_error" = k) :
    getProp (baseProps o) k = none := by
  unfold baseProps
  rw [getProp_cons, if_neg h1, getProp_cons, if_neg h2, getProp_cons, if_neg h3,
    getProp_cons, if_neg h4, getProp_cons, if_neg h5, getProp_cons, if_neg h6, getProp_nil]

theorem getProp_stageError_ne (o : CaptureOptions) (ps : List (String × JsVal)) {k : String}
    (h : ¬ "$ai_error" = k) : getProp (stageError o ps) k = getProp ps k := by
  unfold stageError
  by_cases hc : (o.isError && o.error.truthy) = true
  · rw [if_pos hc, getProp_setProp_ne h]
  · rw [if_neg hc]

theorem getProp_stageError_self (o : CaptureOptions) (ps : List (String × JsVal)) :
    getProp (stageError o ps) "$ai_error"
      = if o.isError && o.error.truthy then some (formatError o.error)
        else getProp ps "$ai_error" := by
  unfold stageError
  by_cases hc : (o.isError && o.error.truthy) = true
  · rw [if_pos hc, if_pos hc, getProp_setProp_self]
  · rw [if_neg hc, if_neg hc]

theorem getProp_stageInputOutput_ne (o : CaptureOptions) (ps : List (String × JsVal))
    {k : String} (h1 : ¬ "$ai_input" = k) (h2 : ¬ "$ai_output_choices" = k) :
    getProp (stageInputOutput o ps) k = getProp ps k := by
  simp only [stageInputOutput]
  by_cases hp : (!truthyOptBool o.privacyMode) = true
  · rw [if_pos hp]
    by_cases ho : (!o.output.isUndef) = true
    · rw [if_pos ho, getProp_setProp_ne h2]
      by_cases hi : (!o.input.isUndef) = true
      · rw [if_pos hi, getProp_setProp_ne h1]
      · rw [if_neg hi]
    · rw [if_neg ho]
      by_cases hi : (!o.input.isUndef) = true
      · rw [if_pos hi, getProp_setProp_ne h1]
      · rw [if_neg hi]
  · rw [if_neg hp]

theorem stageInputOutput_of_privacy (o : CaptureOptions) (ps : List (String × JsVal))
    (h : truthyOptBool o.privacyMode = true) : stageInputOutput o ps = ps := by
  simp only [stageInputOutput, h, Bool.not_true]
  rw [if_neg (by simp)]

theorem getProp_stageTrace_ne (o : CaptureOptions) (ps : List (String × JsVal)) {k : String}
    (h : ¬ "$ai_trace_id" = k) : getProp (stageTrace o ps) k = getProp ps k := by
  unfold stageTrace
  cases o.traceId with
  | none => rfl
  | some s =>
    by_cases hs : s = "" <;> simp [hs, getProp_setProp_ne h]

theorem getProp_stageStream_ne (o : CaptureOptions) (ps : List (String × JsVal)) {k : String}
    (h : ¬ "$ai_stream" = k) : getProp (stageStream o ps) k = getProp ps k := by
  unfold stageStream
  cases o.stream with
  | none => rfl
  | some b => rw [getProp_setProp_ne h]

theorem getProp_stagePredictionId_ne (o : CaptureOptions) (ps : List (String × JsVal))
    {k : String} (h : ¬ "$ai_prediction_id" = k) :
    getProp (stagePredictionId o ps) k = getProp ps k := by
  unfold stagePredictionId
  cases o.predictionId with
  | none => rfl
  | some s =>
    by_cases hs : s = "" <;> simp [hs, getProp_setProp_ne h]

theorem getProp_stageCustom_ne (o : CaptureOptions) (ps : List (String × JsVal)) {k : String}
    (h : ∀ p ∈ o.customProperties.getD [], ¬ p.1 = k) :
    getProp (stageCustom o ps) k = getProp ps k := by
  unfold stageCustom
  cases hc : o.customProperties with
  | none => rfl
  | some cs =>
    rw [getProp_foldl_setProp]
    have hnone : getProp cs.reverse k = none := by
      apply getProp_eq_none_of_forall_ne
      intro p hp
      exact h p (by rw [hc]; exact List.mem_reverse.mp hp)
    rw [hnone, Option.none_or]

theorem getProp_stageCustom_mem (o : CaptureOptions) (ps : List (String × JsVal))
    {cs : List (String × JsVal)} {k : String} {v : JsVal} (hc : o.customProperties = some cs)
    (hnd : (cs.map Prod.fst).Nodup) (hmem : (k, v) ∈ cs) :
    getProp (stageCustom o ps) k = some v := by
  unfold stageCustom
  rw [hc, getProp_foldl_setProp]
  have hrev : getProp cs.reverse k = some v := by
    apply getProp_eq_some_of_mem_nodup
    · rw [List.map_reverse]
      exact List.nodup_reverse.mpr hnd
    · exact List.mem_reverse.mpr hmem
  rw [hrev]
  rfl

theorem getProp_stageCustom_setProp_self (o : CaptureOptions) (ps : List (String × JsVal))
    {cs0 : List (String × JsVal)} {k : String} {v : JsVal}
    (hc : o.customProperties = some (setProp cs0 k v)) :
    getProp (stageCustom o ps) k = some v := by
  unfold stageCustom
  rw [hc, getProp_foldl_setProp, getProp_reverse_setProp_self]
  rfl

theorem captureGeneration_properties (o : CaptureOptions) :
    (captureGeneration o).properties
      = stageCustom o (stagePredictionId o (stageStream o (stageTrace o
          (stageInputOutput o (stageError o (baseProps o)))))) := rfl

theorem truthyOptBool_eq {x : Option Bool} (h : x = some true) : truthyOptBool x = true := by
  rw [h]
  rfl

theorem forall_keys_setProp {cs : List (String × JsVal)} {k' k : String} (v : JsVal)
    (hk : ¬ k' = k) (h : ∀ p ∈ cs, ¬ p.1 = k) : ∀ p ∈ setProp cs k' v, ¬ p.1 = k := by
  intro p hp
  unfold setProp at hp
  by_cases ha : cs.any (fun q => q.1 = k') = true
  · rw [if_pos ha] at hp
    obtain ⟨q, hq, hqe⟩ := List.mem_map.mp hp
    by_cases hq1 : q.1 = k'
    · rw [← hqe, if_pos hq1]
      exact hk
    · rw [← hqe, if_neg hq1]
      exact h q hq
  · rw [if_neg ha] at hp
    rcases List.mem_append.mp hp with h1 | h2
    · exact h p h1
    · rw [List.mem_singleton.mp h2]
      exact hk

theorem getProp_reverse_setProp_ne {k2 k : String} (hne : ¬ k2 = k)
    (ps : List (String × JsVal)) (v : JsVal) :
    getProp ((setProp ps k2 v).reverse) k = getProp ps.reverse k := by
  unfold setProp
  by_cases h : ps.any (fun p => p.1 = k2) = true
  · rw [if_pos h, ← List.map_reverse]
    exact getProp_map_replace_ne hne v ps.reverse
  · rw [if_neg h, List.reverse_append]
    simp only [List.reverse_cons, List.reverse_nil, List.nil_append, List.singleton_append]
    rw [getProp_cons, if_neg hne]

theorem getProp_stageCustom_setProp_ne_self (o : CaptureOptions) (ps : List (String × JsVal))
    {cs0 : List (String × JsVal)} {k k2 : String} {v v2 : JsVal} (hne : ¬ k2 = k)
    (hc : o.customProperties = some (setProp (setProp cs0 k v) k2 v2)) :
    getProp (stageCustom o ps) k = some v := by
  unfold stageCustom
  rw [hc, getProp_foldl_setProp, getProp_reverse_setProp_ne hne, getProp_reverse_setProp_self]
  rfl

theorem hasProp_captureGeneration_io_false (c : CaptureOptions)
    (hp : truthyOptBool c.privacyMode = true)
    (h1 : ∀ p ∈ c.customProperties.getD [], ¬ p.1 = "$ai_input")
    (h2 : ∀ p ∈ c.customProperties.getD [], ¬ p.1 = "$ai_output_choices") :
    hasProp (captureGeneration c).properties "$ai_input" = false
      ∧ hasProp (captureGeneration c).properties "$ai_output_choices" = false := by
  unfold hasProp
  rw [captureGeneration_properties]
  constructor
  · rw [getProp_stageCustom_ne _ _ h1, getProp_stagePredictionId_ne _ _ (by decide),
      getProp_stageStream_ne _ _ (by decide), getProp_stageTrace_ne _ _ (by decide),
      stageInputOutput_of_privacy _ _ hp, getProp_stageError_ne _ _ (by decide),
      getProp_baseProps_ne _ (by decide) (by decide) (by decide) (by decide) (by decide)
        (by decide)]
    rfl
  · rw [getProp_stageCustom_ne _ _ h2, getProp_stagePredictionId_ne _ _ (by decide),
      getProp_stageStream_ne _ _ (by decide), getProp_stageTrace_ne _ _ (by decide),
      stageInputOutput_of_privacy _ _ hp, getProp_stageError_ne _ _ (by decide),
      getProp_baseProps_ne _ (by decide) (by decide) (by decide) (by decide) (by decide)
        (by decide)]
    rfl

theorem hasProp_captureGeneration_error_char (c : CaptureOptions)
    (h : ∀ p ∈ c.customProperties.getD [], ¬ p.1 = "$ai_error") :
    hasProp (captureGeneration c).properties "$ai_error" = (c.isError && c.error.truthy) := by
  unfold hasProp
  rw [captureGeneration_properties, getProp_stageCustom_ne _ _ h,
    getProp_stagePredictionId_ne _ _ (by decide), getProp_stageStream_ne _ _ (by decide),
    getProp_stageTrace_ne _ _ (by decide),
    getProp_stageInputOutput_ne _ _ (by decide) (by decide), getProp_stageError_self,
    getProp_baseProps_ne _ (by decide) (by decide) (by decide) (by decide) (by decide)
      (by decide)]
  cases hc : (c.isError && c.error.truthy) <;> simp [hc]

/-- The spec-side status field: `numericField v k` is the numeric value of
`v.k` when that field is a number. -/
def numericField (v : JsVal) (k : String) : Option Int :=
  numAt (v.getField k)

/-- The extraction chain exactly as the spec words it: a numeric `status`
field, else a numeric `statusCode` field, else a numeric `status` field of
a nested `response` object. -/
def specStatusChain (err : JsVal) : Option Int :=
  (numericField err "status").or
    ((numericField err "statusCode").or (numericField (err.getField "response") "status"))

theorem extractHttpStatus_eq_chain (err : JsVal) :
    extractHttpStatus err = specStatusChain err := by
  unfold extractHttpStatus specStatusChain numericField
  by_cases hg : (err.truthy && err.typeofStr = "object") = true
  · rw [if_pos hg]
    cases h1 : numAt (err.getField "status") with
    | some n => rfl
    | none =>
      cases h2 : numAt (err.getField "statusCode") with
      | some n => rfl
      | none =>
        dsimp only []
        by_cases hr : ((err.getField "response").truthy
            && (err.getField "response").typeofStr = "object") = true
        · rw [if_pos hr]
          rfl
        · rw [if_neg hr]
          cases hresp : err.getField "response" with
          | obj ie f =>
            exfalso
            apply hr
            rw [hresp]
            simp [JsVal.truthy, JsVal.typeofStr]
          | num n => rfl
          | str s => rfl
          | bool b => rfl
          | null => rfl
          | undef => rfl
          | arr es =>
            exfalso
            apply hr
            rw [hresp]
            simp [JsVal.truthy, JsVal.typeofStr]
  · rw [if_neg hg]
    cases err with
    | obj ie f =>
      exfalso
      apply hg
      simp [JsVal.truthy, JsVal.typeofStr]
    | arr es =>
      exfalso
      apply hg
      simp [JsVal.truthy, JsVal.typeofStr]
    | num n => rfl
    | str s => rfl
    | bool b => rfl
    | null => rfl
    | undef => rfl

/-
  The claims.
-/

/-- Claim C1: every completed logical operation — a run, a full stream
lifecycle, an async prediction create, an async prediction get — hands
exactly one telemetry event to the collector's capture operation, never
zero and never more than one, whether the operation succeeded or failed.
The `finally` block of each wrapper makes its single `captureGeneration`
call on every path. -/
theorem exactly_one_capture_per_operation (model : String) (ro : RunOptions)
    (so : StreamOptions) (co : PredictionCreateOptions) (pid : String)
    (go : Option PredictionGetOptions) (u uc ug : Except JsVal JsVal)
    (chunks : List Chunk) (serr : Option JsVal) (st stc : TrackMap) (l : Int) :
    (run model ro u l).captureCalls.length = 1
      ∧ (stream model so chunks serr l).captureCalls.length = 1
      ∧ (createPrediction co uc st l).captureCalls.length = 1
      ∧ (getPrediction pid go ug stc l).captureCalls.length = 1 :=
  ⟨rfl, rfl, rfl, rfl⟩

/-- Claim C2: a run call returns the underlying client's value unmodified
on success and rethrows the underlying client's error unmodified on
failure (the result is exactly the underlying outcome), and in both cases
the telemetry event is still emitted — propagation happens alongside the
capture, never instead of it. -/
theorem run_propagates_outcome_unchanged (model : String) (ro : RunOptions)
    (u : Except JsVal JsVal) (l : Int) :
    (run model ro u l).result = u ∧ (run model ro u l).captureCalls.length = 1 :=
  ⟨rfl, rfl⟩

/-- Claim C5 fails as stated: for the error `{status: 0}` the chain finds
the numeric `status` field `0`, yet the recorded status is 500, because
`extractHttpStatus(err) || 500` also replaces the falsy number 0 — so
"recorded status is 500 exactly when none of the fields is found" does not
hold. -/
theorem status_zero_breaks_default_claim :
    ¬ (httpStatusOr500 (JsVal.obj false [("status", JsVal.num 0)]) = 500
        ↔ extractHttpStatus (JsVal.obj false [("status", JsVal.num 0)]) = none) := by
  decide

/-- Claim C5 (amended): the HTTP status recorded for an error is determined
by the ordered chain — a numeric `status` field, then a numeric
`statusCode` field, then a numeric `status` field of a nested `response`
object — and the recorded status is the found value when that value is
nonzero, and 500 when none of the fields is found or the found value is
the falsy number 0. -/
theorem http_status_extraction_chain (err : JsVal) :
    extractHttpStatus err = specStatusChain err
      ∧ httpStatusOr500 err
          = (match specStatusChain err with
             | some n => if n = 0 then 500 else n
             | none => 500) := by
  refine ⟨extractHttpStatus_eq_chain err, ?_⟩
  unfold httpStatusOr500
  rw [extractHttpStatus_eq_chain err]

/-- Claim C6: over any finite underlying chunk sequence (ending normally
or in an iteration error) the chunks yielded to the caller are exactly the
underlying stream's chunks, in order and content; exactly one capture call
is made afterwards, with the stream flag true and with output equal to the
concatenation, in order, of the `data` payloads of the `"output"`-tagged
chunks — absent (`undefined`) when that concatenation is empty. -/
theorem stream_relays_chunks_and_captures_once (model : String) (so : StreamOptions)
    (chunks : List Chunk) (serr : Option JsVal) (l : Int) :
    (stream model so chunks serr l).yielded = chunks
      ∧ (stream model so chunks serr l).streamError = serr
      ∧ (stream model so chunks serr l).captureCalls.map
          (fun c => (c.stream, c.output))
        = [(some true,
            if collectOutput chunks = "" then JsVal.undef
            else JsVal.str (collectOutput chunks))] :=
  ⟨rfl, rfl, rfl⟩

/-- Claim C8: an async-get observing a terminal status (succeeded, failed
or canceled on the fetched record) removes the correlation entry for that
job identifier — after which a lookup of the identifier finds nothing — and
any other observation leaves the tracking map exactly as it was. -/
theorem terminal_status_purges_entry (pid : String) (go : Option PredictionGetOptions)
    (u : Except JsVal JsVal) (st : TrackMap) (l : Int) :
    (getPrediction pid go u st l).state
        = (if isCompletedStatus ((predictionValue u).getField "status")
           then mapDelete st pid else st)
      ∧ mapGet (mapDelete st pid) pid = none :=
  ⟨rfl, mapGet_mapDelete_self st pid⟩

/-- Claim C10: a capture whose supplied distinct id is the empty string is
emitted with distinct id "anonymous", the same sentinel used when no
distinct id is supplied at all — `options.distinctId || "anonymous"`
defaults on every falsy value. -/
theorem empty_distinct_id_defaults_to_anonymous (o : CaptureOptions) :
    (captureGeneration { o with distinctId := some "" }).distinctId = "anonymous"
      ∧ (captureGeneration { o with distinctId := none }).distinctId = "anonymous" :=
  ⟨rfl, rfl⟩

/-- Claim C3 fails as stated: a run call with privacy mode true whose
caller-supplied custom properties themselves contain the `$ai_input` key
still emits an event carrying `$ai_input`, because custom properties are
merged after the privacy filter. -/
theorem privacy_mode_defeated_by_custom_property :
    (run "a/b"
      { input := JsVal.obj false [], posthogPrivacyMode := some true,
        posthogProperties := some [("$ai_input", JsVal.str "leak")] }
      (Except.ok (JsVal.str "ok")) 0).captureCalls.map
      (fun c => hasProp (captureGeneration c).properties "$ai_input") = [true] := rfl

/-- Claim C3 (amended): for every operation and outcome, if the caller
supplied privacy mode true and the caller-supplied custom properties
contain neither the `$ai_input` key nor the `$ai_output_choices` key, the
emitted event's property map contains neither key. -/
theorem privacy_mode_excludes_io_keys (model : String) (ro : RunOptions)
    (so : StreamOptions) (co : PredictionCreateOptions) (pid : String)
    (g : PredictionGetOptions) (u uc ug : Except JsVal JsVal) (chunks : List Chunk)
    (serr : Option JsVal) (st stc : TrackMap) (l : Int)
    (hr : ro.posthogPrivacyMode = some true)
    (hri : ∀ p ∈ ro.posthogProperties.getD [], ¬ p.1 = "$ai_input")
    (hro : ∀ p ∈ ro.posthogProperties.getD [], ¬ p.1 = "$ai_output_choices")
    (hs : so.posthogPrivacyMode = some true)
    (hsi : ∀ p ∈ so.posthogProperties.getD [], ¬ p.1 = "$ai_input")
    (hso : ∀ p ∈ so.posthogProperties.getD [], ¬ p.1 = "$ai_output_choices")
    (hc : co.posthogPrivacyMode = some true)
    (hci : ∀ p ∈ co.posthogProperties.getD [], ¬ p.1 = "$ai_input")
    (hco : ∀ p ∈ co.posthogProperties.getD [], ¬ p.1 = "$ai_output_choices")
    (hg : g.posthogPrivacyMode = some true)
    (hgi : ∀ p ∈ g.posthogProperties.getD [], ¬ p.1 = "$ai_input")
    (hgo : ∀ p ∈ g.posthogProperties.getD [], ¬ p.1 = "$ai_output_choices") :
    (run model ro u l).captureCalls.map
        (fun c => (hasProp (captureGeneration c).properties "$ai_input",
                   hasProp (captureGeneration c).properties "$ai_output_choices"))
      = [(false, false)]
    ∧ (stream model so chunks serr l).captureCalls.map
        (fun c => (hasProp (captureGeneration c).properties "$ai_input",
                   hasProp (captureGeneration c).properties "$ai_output_choices"))
      = [(false, false)]
    ∧ (createPrediction co uc st l).captureCalls.map
        (fun c => (hasProp (captureGeneration c).properties "$ai_input",
                   hasProp (captureGeneration c).properties "$ai_output_choices"))
      = [(false, false)]
    ∧ (getPrediction pid (some g) ug stc l).captureCalls.map
        (fun c => (hasProp (captureGeneration c).properties "$ai_input",
                   hasProp (captureGeneration c).properties "$ai_output_choices"))
      = [(false, false)] := by
  refine ⟨?_, ?_, ?_, ?_⟩
  · simp only [run, List.map_cons, List.map_nil, List.cons.injEq, and_true, Prod.mk.injEq]
    exact hasProp_captureGeneration_io_false _ (truthyOptBool_eq hr) hri hro
  · simp only [stream, List.map_cons, List.map_nil, List.cons.injEq, and_true, Prod.mk.injEq]
    exact hasProp_captureGeneration_io_false _ (truthyOptBool_eq hs) hsi hso
  · simp only [createPrediction, List.map_cons, List.map_nil, List.cons.injEq, and_true,
      Prod.mk.injEq]
    exact hasProp_captureGeneration_io_false _ (truthyOptBool_eq hc)
      (forall_keys_setProp _ (by decide) hci) (forall_keys_setProp _ (by decide) hco)
  · simp only [getPrediction, List.map_cons, List.map_nil, List.cons.injEq, and_true,
      Prod.mk.injEq]
    exact hasProp_captureGeneration_io_false _ (truthyOptBool_eq hg)
      (forall_keys_setProp _ (by decide) (forall_keys_setProp _ (by decide)
        (forall_keys_setProp _ (by decide) hgi)))
      (forall_keys_setProp _ (by decide) (forall_keys_setProp _ (by decide)
        (forall_keys_setProp _ (by decide) hgo)))

/-- Witness for the amended claim C3, at a concrete run, stream, create
and get call with privacy mode true and no custom properties. -/
theorem privacy_mode_excludes_io_keys_witness :
    (run "a/b" { input := JsVal.null, posthogPrivacyMode := some true }
        (Except.ok (JsVal.str "out")) 0).captureCalls.map
        (fun c => (hasProp (captureGeneration c).properties "$ai_input",
                   hasProp (captureGeneration c).properties "$ai_output_choices"))
      = [(false, false)]
    ∧ (stream "a/b" { input := JsVal.null, posthogPrivacyMode := some true }
        [{ event := "output", data := "x" }] none 0).captureCalls.map
        (fun c => (hasProp (captureGeneration c).properties "$ai_input",
                   hasProp (captureGeneration c).properties "$ai_output_choices"))
      = [(false, false)]
    ∧ (createPrediction { input := JsVal.null, posthogPrivacyMode := some true }
        (Except.ok (JsVal.obj false [("id", JsVal.str "p1")])) [] 0).captureCalls.map
        (fun c => (hasProp (captureGeneration c).properties "$ai_input",
                   hasProp (captureGeneration c).properties "$ai_output_choices"))
      = [(false, false)]
    ∧ (getPrediction "p1" (some { posthogPrivacyMode := some true })
        (Except.ok (JsVal.obj false [("status", JsVal.str "succeeded")])) [] 0).captureCalls.map
        (fun c => (hasProp (captureGeneration c).properties "$ai_input",
                   hasProp (captureGeneration c).properties "$ai_output_choices"))
      = [(false, false)] :=
  privacy_mode_excludes_io_keys "a/b" { input := JsVal.null, posthogPrivacyMode := some true }
    { input := JsVal.null, posthogPrivacyMode := some true }
    { input := JsVal.null, posthogPrivacyMode := some true } "p1"
    { posthogPrivacyMode := some true } (Except.ok (JsVal.str "out"))
    (Except.ok (JsVal.obj false [("id", JsVal.str "p1")]))
    (Except.ok (JsVal.obj false [("status", JsVal.str "succeeded")]))
    [{ event := "output", data := "x" }] none [] [] 0
    rfl (by decide) (by decide) rfl (by decide) (by decide) rfl (by decide) (by decide)
    rfl (by decide) (by decide)

/-- Claim C4 fails as stated: an async-get whose fetched record has status
"failed" but no error field emits an event with the error flag true and no
`$ai_error` property — the code only adds `$ai_error` when the captured
error value is truthy (`options.isError && options.error`). -/
theorem error_flag_without_error_detail :
    (getPrediction "p1" none (Except.ok (JsVal.obj false [("status", JsVal.str "failed")]))
      [] 0).captureCalls.map
      (fun c => (getProp (captureGeneration c).properties "$ai_is_error",
                 hasProp (captureGeneration c).properties "$ai_error"))
      = [(some (JsVal.bool true), false)] := rfl

/-- Claim C4 (amended): in every emitted event whose caller-supplied custom
properties do not contain the `$ai_error` key, the error-detail property
`$ai_error` is present iff the error flag is true and the captured error
value is truthy; an event with the error flag true but a falsy (for
example absent) error value carries no error field. -/
theorem error_detail_iff_truthy_error (c : CaptureOptions)
    (h : ∀ p ∈ c.customProperties.getD [], ¬ p.1 = "$ai_error") :
    hasProp (captureGeneration c).properties "$ai_error"
      = (c.isError && c.error.truthy) :=
  hasProp_captureGeneration_error_char c h

/-- Witness for the amended claim C4, at a concrete failed capture with a
truthy error value. -/
theorem error_detail_iff_truthy_error_witness :
    hasProp (captureGeneration
      { model := "a/b", latency := 0, httpStatus := 500, isError := true,
        error := JsVal.str "boom" }).properties "$ai_error"
      = ((true : Bool) && (JsVal.str "boom").truthy) :=
  error_detail_iff_truthy_error
    { model := "a/b", latency := 0, httpStatus := 500, isError := true,
      error := JsVal.str "boom" } (by decide)

/-- Claim C7 is the intent, but the code drops the stored create-time
tracking parameters whenever any options object is supplied to the get
call: `{...storedParams, ...providedParams}` spreads a literal that carries
all five posthog keys (undefined-valued when unsupplied), so a get call
supplying only a trace id erases the stored distinct id, and the event is
emitted for "anonymous" instead of the create-time user. -/
theorem get_with_options_drops_stored_params :
    ((mapGet (createPrediction
        { model := some "a/b", input := JsVal.obj false [],
          posthogDistinctId := some "user_123" }
        (Except.ok (JsVal.obj false [("id", JsVal.str "p1"), ("status", JsVal.str "starting")]))
        [] 0).state "p1").isSome = true)
    ∧ (getPrediction "p1" (some { posthogTraceId := some "t" })
        (Except.ok (JsVal.obj false [("status", JsVal.str "starting")]))
        (createPrediction
          { model := some "a/b", input := JsVal.obj false [],
            posthogDistinctId := some "user_123" }
          (Except.ok (JsVal.obj false [("id", JsVal.str "p1"), ("status", JsVal.str "starting")]))
          [] 0).state 0).captureCalls.map
        (fun c => (captureGeneration c).distinctId) = ["anonymous"]
    ∧ (getPrediction "p1" none
        (Except.ok (JsVal.obj false [("status", JsVal.str "starting")]))
        (createPrediction
          { model := some "a/b", input := JsVal.obj false [],
            posthogDistinctId := some "user_123" }
          (Except.ok (JsVal.obj false [("id", JsVal.str "p1"), ("status", JsVal.str "starting")]))
          [] 0).state 0).captureCalls.map
        (fun c => (captureGeneration c).distinctId) = ["user_123"] :=
  ⟨rfl, rfl, rfl⟩

/-- Claim C9 fails as stated: an async-create call whose caller-supplied
custom properties set the async-creation flag `$ai_async_prediction` to
false still emits the event with the flag true — the generated key is
written after the caller's properties are spread into the literal. -/
theorem async_flag_overrides_caller_value :
    (createPrediction
      { model := some "a/b", input := JsVal.obj false [],
        posthogProperties := some [("$ai_async_prediction", JsVal.bool false)] }
      (Except.ok (JsVal.obj false [("id", JsVal.str "p1")])) [] 0).captureCalls.map
      (fun c => getProp (captureGeneration c).properties "$ai_async_prediction")
      = [some (JsVal.bool true)] := rfl

/-- Claim C9 (amended): custom properties are merged into the event's
property map last, so the caller's value wins for every key of the
caller-supplied mapping as the capture layer receives it; however the
async-create and async-get wrappers append their generated keys
(`$ai_async_prediction`; `$ai_prediction_status`, `$ai_prediction_get`,
`$ai_prediction_completed`) after spreading the caller's properties, so
for those keys the generated value takes precedence over the caller's. -/
theorem custom_properties_merged_last :
    (∀ (o : CaptureOptions) (cs : List (String × JsVal)) (k : String) (v : JsVal),
        o.customProperties = some cs → (cs.map Prod.fst).Nodup → (k, v) ∈ cs →
          getProp (captureGeneration o).properties k = some v)
    ∧ (∀ (co : PredictionCreateOptions) (u : Except JsVal JsVal) (st : TrackMap) (l : Int),
        (createPrediction co u st l).captureCalls.map
            (fun c => getProp (captureGeneration c).properties "$ai_async_prediction")
          = [some (JsVal.bool true)])
    ∧ (∀ (pid : String) (go : Option PredictionGetOptions) (u : Except JsVal JsVal)
          (st : TrackMap) (l : Int),
        (getPrediction pid go u st l).captureCalls.map
            (fun c => getProp (captureGeneration c).properties "$ai_prediction_get")
          = [some (JsVal.bool true)]) := by
  refine ⟨?_, ?_, ?_⟩
  · intro o cs k v hc hnd hmem
    rw [captureGeneration_properties]
    exact getProp_stageCustom_mem o _ hc hnd hmem
  · intro co u st l
    simp only [createPrediction, List.map_cons, List.map_nil, List.cons.injEq, and_true]
    rw [captureGeneration_properties]
    exact getProp_stageCustom_setProp_self _ _ rfl
  · intro pid go u st l
    simp only [getPrediction, List.map_cons, List.map_nil, List.cons.injEq, and_true]
    rw [captureGeneration_properties]
    exact getProp_stageCustom_setProp_ne_self _ _ (by decide) rfl

/-- Witness for the amended claim C9: a concrete custom property reaches
the event unchanged, the create flag is forced to true, and the get marker
is forced to true. -/
theorem custom_properties_merged_last_witness :
    getProp (captureGeneration
      { model := "a/b", latency := 0, httpStatus := 200, isError := false,
        customProperties := some [("$ai_span_name", JsVal.str "x")] }).properties
      "$ai_span_name" = some (JsVal.str "x")
    ∧ (createPrediction { model := some "a/b", input := JsVal.null }
        (Except.ok (JsVal.obj false [("id", JsVal.str "p1")])) [] 0).captureCalls.map
        (fun c => getProp (captureGeneration c).properties "$ai_async_prediction")
      = [some (JsVal.bool true)]
    ∧ (getPrediction "p1" none (Except.ok (JsVal.obj false [("status", JsVal.str "starting")]))
        [] 0).captureCalls.map
        (fun c => getProp (captureGeneration c).properties "$ai_prediction_get")
      = [some (JsVal.bool true)] :=
  ⟨custom_properties_merged_last.1
      { model := "a/b", latency := 0, httpStatus := 200, isError := false,
        customProperties := some [("$ai_span_name", JsVal.str "x")] }
      [("$ai_span_name", JsVal.str "x")] "$ai_span_name" (JsVal.str "x") rfl (by decide)
      (List.mem_singleton.mpr rfl),
   custom_properties_merged_last.2.1 { model := some "a/b", input := JsVal.null }
      (Except.ok (JsVal.obj false [("id", JsVal.str "p1")])) [] 0,
   custom_properties_merged_last.2.2 "p1" none
      (Except.ok (JsVal.obj false [("status", JsVal.str "starting")])) [] 0⟩

end PostHogReplicate
